import Mathlib

/-!
Shallow embedding of the BloFin futures scraper
(`scraper_root/scraper/blofinfutures.py`).

Strings from the Python source are modelled as `List Char`; Python `float`
values are modelled as `ℚ` (the claims under study only use equality with 0,
sign tests, absolute value and addition, which are exact here).  A Python
`dict.get(key, default)` with a possibly missing key is modelled by an
`Option` field together with `Option.getD`.  Each infinite sync loop is
modelled by the pure function computing what a single cycle of its body
emits to the repository from one fetched response.
-/

namespace BlofinFutures

/-- Character list of a string literal (Python `str` values). -/
def chars (s : String) : List Char := s.data

/-- Python `s.replace('-', '')`, used as the exchange-to-internal symbol
conversion (`inst_id.replace('-', '')`). -/
def removeHyphens (s : List Char) : List Char := s.filter (fun c => c != '-')

/-- Python `s.upper()` on the ASCII side strings of the source. -/
def pyUpper (s : List Char) : List Char := s.map Char.toUpper

/-- Embedding of `BlofinFutures._to_blofin_symbol`: convert `BTCUSDT` format
to the `BTC-USDT` format used by Blofin.  `symbol.endswith('USDT')` is the
suffix test, `symbol[:-4]` is `take (length - 4)`. -/
def to_blofin_symbol (symbol : List Char) : List Char :=
  if chars "USDT" <:+ symbol then
    symbol.take (symbol.length - 4) ++ chars "-USDT"
  else if chars "USDC" <:+ symbol then
    symbol.take (symbol.length - 4) ++ chars "-USDC"
  else
    symbol

/-! ## Balance sync (`sync_account`) -/

/-- One row of the `get_balance(...)['data']` payload.  `currency` is
`none` when the key is absent (the source reads it with
`asset.get('currency', 'USDT')`). -/
structure AssetRow where
  currency : Option (List Char)
  balance : ℚ
  available : ℚ
deriving DecidableEq

/-- The `currency` the loop body works with: `asset.get('currency', 'USDT')`. -/
def rowCurrency (asset : AssetRow) : List Char := asset.currency.getD (chars "USDT")

/-- The `AssetBalance` record of `data_classes`, as populated by `sync_account`. -/
structure AssetBalance where
  asset : List Char
  balance : ℚ
  unrealizedProfit : ℚ
deriving DecidableEq

/-- The `Balance` record of `data_classes`, as populated by `sync_account`. -/
structure Balance where
  totalBalance : ℚ
  totalUnrealizedProfit : ℚ
  assets : List AssetBalance
deriving DecidableEq

/-- One row of the `get_positions()['data']` payload.  `positions` is the
(signed) position quantity; `positionSide` is `none` when absent (the source
reads it with `pos.get('positionSide', 'net')`). -/
structure PositionRow where
  instId : List Char
  positions : ℚ
  positionSide : Option (List Char)
  averagePrice : ℚ
  unrealizedPnl : ℚ
  initialMargin : ℚ
  markPrice : ℚ
deriving DecidableEq

/-- The `for asset in assets_data:` loop of `sync_account`, threading the
`total_balance` and `asset_balances` accumulators exactly as the source:
a `USDT` row overwrites `total_balance`, every other row is appended to
`asset_balances` with `unrealizedProfit=0.0`. -/
def processAssetRows (total_balance : ℚ) (asset_balances : List AssetBalance) :
    List AssetRow → ℚ × List AssetBalance
  | [] => (total_balance, asset_balances)
  | asset :: rest =>
    if rowCurrency asset = chars "USDT" then
      processAssetRows asset.balance asset_balances rest
    else
      processAssetRows total_balance
        (asset_balances ++ [⟨rowCurrency asset, asset.balance, 0⟩]) rest

/-- One cycle of the `sync_account` loop body: partition the balance rows,
then best-effort sum `unrealizedPnl` over the secondary positions fetch
(`positions_resp = none` models that fetch raising: `total_upnl` stays `0.0`).
Returns the `Balance` passed to `repository.process_balances`. -/
def sync_account_cycle (assets_data : List AssetRow)
    (positions_resp : Option (List PositionRow)) : Balance :=
  let tb := processAssetRows 0 [] assets_data
  let total_upnl : ℚ :=
    match positions_resp with
    | some ps => ps.foldl (fun s pos => s + pos.unrealizedPnl) 0
    | none => 0
  ⟨tb.1, total_upnl, tb.2⟩

/-! ## Position sync (`sync_positions`) -/

/-- The `Position` record of `data_classes`, as populated by `sync_positions`. -/
structure Position where
  symbol : List Char
  entry_price : ℚ
  position_size : ℚ
  side : List Char
  unrealizedProfit : ℚ
  initial_margin : ℚ
  market_price : ℚ
deriving DecidableEq

/-- Side resolution of `sync_positions`: explicit `positionSide`
`'long'`/`'short'` wins; otherwise (net mode) the sign of the quantity
decides. -/
def resolveSide (pos_side : List Char) (quantity : ℚ) : List Char :=
  if pos_side = chars "long" then chars "LONG"
  else if pos_side = chars "short" then chars "SHORT"
  else if quantity > 0 then chars "LONG" else chars "SHORT"

/-- The `Position(...)` constructor call of `sync_positions` for one row. -/
def mkPosition (pos : PositionRow) : Position :=
  ⟨removeHyphens pos.instId, pos.averagePrice, |pos.positions|,
   resolveSide (pos.positionSide.getD (chars "net")) pos.positions,
   pos.unrealizedPnl, pos.initialMargin, pos.markPrice⟩

/-- The `for pos in exchange_positions['data']:` loop of `sync_positions`,
threading the `activesymbols` and `positions` accumulators: rows with
`quantity != 0` append their `instId` to `activesymbols` and their
`Position` record to `positions`; zero-quantity rows are skipped. -/
def processPositionRows (activesymbols : List (List Char)) (positions : List Position) :
    List PositionRow → List (List Char) × List Position
  | [] => (activesymbols, positions)
  | pos :: rest =>
    if pos.positions ≠ 0 then
      processPositionRows (activesymbols ++ [pos.instId])
        (positions ++ [mkPosition pos]) rest
    else
      processPositionRows activesymbols positions rest

/-- One cycle of the `sync_positions` loop body.  `symbols` is the
synchronizer's configured symbol list (`self.symbols`); the source body does
not consult it: it resets `self.activesymbols` to the literal `["BTC-USDT"]`
before the loop.  Returns the pair (final `activesymbols`, `positions`
passed to `repository.process_positions`). -/
def sync_positions_cycle (symbols : List (List Char)) (rows : List PositionRow) :
    List (List Char) × List Position :=
  processPositionRows [chars "BTC-USDT"] [] rows

/-! ## Open order sync (`sync_open_orders`) -/

/-- One row of the `get_active_orders()['data']` payload; `side` is `none`
when absent (read with `item.get('side', '')`), `positionSide` defaults to
`'net'`, `orderType` defaults to `'limit'`. -/
structure OrderRow where
  instId : List Char
  price : ℚ
  size : ℚ
  side : Option (List Char)
  positionSide : Option (List Char)
  orderType : Option (List Char)
deriving DecidableEq

/-- The `Order` record of `data_classes`, as populated field-by-field by
`sync_open_orders`. -/
structure Order where
  symbol : List Char
  price : ℚ
  quantity : ℚ
  side : List Char
  position_side : List Char
  type : List Char
deriving DecidableEq

/-- The per-row body of `sync_open_orders`.  Note the source line
`order.side = side if side in ['BUY', 'SELL'] else side`: both branches of
the conditional yield `side`, so the uppercased input passes through
unconditionally; the embedding keeps the conditional verbatim. -/
def orderOfRow (item : OrderRow) : Order :=
  let side := pyUpper (item.side.getD [])
  let pos_side := item.positionSide.getD (chars "net")
  { symbol := removeHyphens item.instId
    price := item.price
    quantity := item.size
    side := if side = chars "BUY" ∨ side = chars "SELL" then side else side
    position_side :=
      if pos_side = chars "long" then chars "LONG"
      else if pos_side = chars "short" then chars "SHORT"
      else if side = chars "BUY" then chars "LONG" else chars "SHORT"
    type := pyUpper (item.orderType.getD (chars "limit")) }

/-- One cycle of the `sync_open_orders` loop body: the `orders` list passed
to `repository.process_orders`. -/
def sync_open_orders_cycle (rows : List OrderRow) : List Order :=
  rows.map orderOfRow

/-! ## Tick sync (`sync_current_price`) -/

/-- One element of a `get_tickers(...)['data']` payload; `ts` is `none`
when absent (read with `tick_data.get('ts', int(time.time() * 1000))`). -/
structure TickData where
  last : ℚ
  lastSize : ℚ
  ts : Option Nat
deriving DecidableEq

/-- Outcome of one `get_tickers(inst_id=sym)` call: either the call raises
(`raise`), or it returns a response whose `data` payload is `none` (falsy
response / missing key) or a list of ticker rows. -/
inductive TickerResult where
  | raise : TickerResult
  | resp : Option (List TickData) → TickerResult

/-- The `Tick` record of `data_classes`, as populated by `sync_current_price`. -/
structure Tick where
  symbol : List Char
  price : ℚ
  qty : ℚ
  timestamp : Nat
deriving DecidableEq

/-- The `Tick(...)` constructor call of `sync_current_price` for one symbol;
`now` is `int(time.time() * 1000)`. -/
def mkTick (now : Nat) (sym : List Char) (tick_data : TickData) : Tick :=
  ⟨removeHyphens sym, tick_data.last, tick_data.lastSize, tick_data.ts.getD now⟩

/-- The `for sym in symbols_to_fetch:` loop of one `sync_current_price`
cycle: each symbol's fetch is wrapped in its own `try`, so a raising fetch
(`TickerResult.raise`) is logged and skipped; a response with a non-empty
`data` list emits one `Tick` via `repository.process_tick`.  Returns the
ticks emitted during the cycle, in order. -/
def sync_current_price_cycle (now : Nat) (fetch : List Char → TickerResult) :
    List (List Char) → List Tick
  | [] => []
  | sym :: rest =>
    match fetch sym with
    | TickerResult.resp (some (tick_data :: _)) =>
      mkTick now sym tick_data :: sync_current_price_cycle now fetch rest
    | _ => sync_current_price_cycle now fetch rest

/-! ## Trade / income history sync (`sync_trades`) -/

/-- One row of the `get_order_history(...)['data']` payload.  `state` is read
with `trade.get('state', '')`; `updateTime` is `none` when absent;
`orderId` is `none` when absent (`trade.get('orderId')` returns `None`),
and may also be the empty string, which is falsy in the cursor update. -/
structure TradeRow where
  state : List Char
  pnl : ℚ
  fee : ℚ
  instId : List Char
  updateTime : Option Nat
  orderId : Option (List Char)
deriving DecidableEq

/-- The `Income` record of `data_classes`, as populated by `sync_trades`. -/
structure Income where
  symbol : List Char
  asset : List Char
  type : List Char
  income : ℚ
  timestamp : Nat
  transaction_id : List Char
deriving DecidableEq

/-- The `Income(...)` constructor call of `sync_trades` for one filled row
with non-zero pnl; `now` is `int(time.time() * 1000)`. -/
def mkIncome (now : Nat) (trade : TradeRow) : Income :=
  ⟨removeHyphens trade.instId, chars "USDT", chars "REALIZED_PNL",
   trade.pnl + trade.fee, trade.updateTime.getD now, trade.orderId.getD []⟩

/-- The cursor update of `sync_trades`:
`order_id = trade.get('orderId'); if order_id: last_synced_id = order_id`.
A missing or empty (falsy) `orderId` leaves the cursor unchanged. -/
def cursorUpdate (last_synced_id : Option (List Char)) (trade : TradeRow) :
    Option (List Char) :=
  match trade.orderId with
  | some order_id => if order_id.isEmpty then last_synced_id else some order_id
  | none => last_synced_id

/-- The `for trade in exchange_orders['data']:` loop of one `sync_trades`
cycle: rows whose `state` is not `'filled'` are skipped by `continue`
(before the cursor update); filled rows update the cursor, and additionally
append an `Income` when `pnl != 0`.  Returns the `incomes` list and the
final `last_synced_id` cursor. -/
def processTradePage (now : Nat) (last_synced_id : Option (List Char)) :
    List TradeRow → List Income × Option (List Char)
  | [] => ([], last_synced_id)
  | trade :: rest =>
    if trade.state = chars "filled" then
      let next := processTradePage now (cursorUpdate last_synced_id trade) rest
      if trade.pnl ≠ 0 then (mkIncome now trade :: next.1, next.2) else next
    else
      processTradePage now last_synced_id rest

/-- Specification-side view of the cursor contribution of one order-history
row: a filled row with a present, non-empty `orderId` contributes that id;
every other row contributes nothing.  (Independent of `pnl`.) -/
def truthyFilledId (trade : TradeRow) : Option (List Char) :=
  if trade.state = chars "filled" then
    match trade.orderId with
    | some order_id => if order_id.isEmpty then none else some order_id
    | none => none
  else none

/-- Specification-side view of a whole page's cursor contribution: the
contribution of the last row that has one (searched from the right). -/
def lastFilledId : List TradeRow → Option (List Char)
  | [] => none
  | trade :: rest => (lastFilledId rest).or (truthyFilledId trade)

/-! ## Helper lemmas -/

theorem processPositionRows_eq (rows : List PositionRow) :
    ∀ active ps, processPositionRows active ps rows =
      (active ++ (rows.filter fun r => decide (r.positions ≠ 0)).map PositionRow.instId,
       ps ++ (rows.filter fun r => decide (r.positions ≠ 0)).map mkPosition) := by
  induction rows with
  | nil => intro active ps; simp [processPositionRows]
  | cons pos rest ih =>
    intro active ps
    by_cases h : pos.positions = 0
    · simp [processPositionRows, h, List.filter_cons, ih]
    · simp [processPositionRows, h, List.filter_cons, ih, List.append_assoc]

theorem processAssetRows_fst (rows : List AssetRow) :
    ∀ total_balance asset_balances,
      (processAssetRows total_balance asset_balances rows).1 =
        ((rows.filter fun a => decide (rowCurrency a = chars "USDT")).map
          AssetRow.balance).foldl (fun _ b => b) total_balance := by
  induction rows with
  | nil => intro tb acc; simp [processAssetRows]
  | cons asset rest ih =>
    intro tb acc
    by_cases h : rowCurrency asset = chars "USDT"
    · simp [processAssetRows, h, List.filter_cons, ih]
    · simp [processAssetRows, h, List.filter_cons, ih]

theorem processAssetRows_snd (rows : List AssetRow) :
    ∀ total_balance asset_balances,
      (processAssetRows total_balance asset_balances rows).2 =
        asset_balances ++
          (rows.filter fun a => !decide (rowCurrency a = chars "USDT")).map
            (fun a => ⟨rowCurrency a, a.balance, 0⟩) := by
  induction rows with
  | nil => intro tb acc; simp [processAssetRows]
  | cons asset rest ih =>
    intro tb acc
    by_cases h : rowCurrency asset = chars "USDT"
    · simp [processAssetRows, h, List.filter_cons, ih]
    · simp [processAssetRows, h, List.filter_cons, ih, List.append_assoc]

theorem processTradePage_fst (trades : List TradeRow) :
    ∀ now cursor, (processTradePage now cursor trades).1 =
      (trades.filter fun t =>
        decide (t.state = chars "filled") && decide (t.pnl ≠ 0)).map (mkIncome now) := by
  induction trades with
  | nil => intro now cursor; simp [processTradePage]
  | cons trade rest ih =>
    intro now cursor
    by_cases hs : trade.state = chars "filled"
    · by_cases hp : trade.pnl = 0 <;>
        simp [processTradePage, hs, hp, List.filter_cons, ih]
    · simp [processTradePage, hs, List.filter_cons, ih]

theorem processTradePage_snd (trades : List TradeRow) :
    ∀ now cursor, (processTradePage now cursor trades).2 =
      (lastFilledId trades).or cursor := by
  induction trades with
  | nil => intro now cursor; simp [processTradePage, lastFilledId]
  | cons trade rest ih =>
    intro now cursor
    by_cases hs : trade.state = chars "filled"
    · have hcu : cursorUpdate cursor trade = (truthyFilledId trade).or cursor := by
        cases ho : trade.orderId with
        | none => simp [cursorUpdate, truthyFilledId, hs, ho]
        | some oid =>
          by_cases he : oid.isEmpty <;> simp [cursorUpdate, truthyFilledId, hs, ho, he]
      by_cases hp : trade.pnl = 0 <;>
        simp [processTradePage, hs, hp, lastFilledId, ih, hcu, Option.or_assoc]
    · simp [processTradePage, hs, lastFilledId, truthyFilledId, ih]

theorem sync_current_price_cycle_eq (now : Nat) (fetch : List Char → TickerResult)
    (syms : List (List Char)) :
    sync_current_price_cycle now fetch syms =
      syms.filterMap (fun sym =>
        match fetch sym with
        | TickerResult.resp (some (tick_data :: _)) => some (mkTick now sym tick_data)
        | _ => none) := by
  induction syms with
  | nil => simp [sync_current_price_cycle]
  | cons sym rest ih =>
    cases hf : fetch sym with
    | raise => simp [sync_current_price_cycle, List.filterMap_cons, hf, ih]
    | resp data =>
      cases data with
      | none => simp [sync_current_price_cycle, List.filterMap_cons, hf, ih]
      | some ds =>
        cases ds with
        | nil => simp [sync_current_price_cycle, List.filterMap_cons, hf, ih]
        | cons td rest2 => simp [sync_current_price_cycle, List.filterMap_cons, hf, ih]

theorem removeHyphens_append (a b : List Char) :
    removeHyphens (a ++ b) = removeHyphens a ++ removeHyphens b :=
  List.filter_append _ _

theorem removeHyphens_eq_self (base : List Char) (h : '-' ∉ base) :
    removeHyphens base = base := by
  apply List.filter_eq_self.2
  intro a ha
  simp only [bne_iff_ne, ne_eq, decide_eq_true_eq]
  exact fun hh => h (hh ▸ ha)

theorem not_suffix_concat_of_ne (t₁ t₂ : List Char) (a b : Char) (hab : a ≠ b) :
    ¬ (t₁ ++ [a] <:+ t₂ ++ [b]) := by
  rintro ⟨t, ht⟩
  have hl := congrArg List.getLast? ht
  rw [← List.append_assoc, List.getLast?_concat, List.getLast?_concat] at hl
  exact hab (Option.some.inj hl)

theorem take_append_sub (base l : List Char) (h : l.length = 4) :
    (base ++ l).take ((base ++ l).length - 4) = base := by
  rw [List.length_append, h, Nat.add_sub_cancel, List.take_left]

theorem to_blofin_append_USDT (base : List Char) :
    to_blofin_symbol (base ++ chars "USDT") = base ++ chars "-USDT" := by
  have h1 : chars "USDT" <:+ base ++ chars "USDT" := List.suffix_append _ _
  unfold to_blofin_symbol
  rw [if_pos h1, take_append_sub base (chars "USDT") rfl]

theorem to_blofin_append_USDC (base : List Char) :
    to_blofin_symbol (base ++ chars "USDC") = base ++ chars "-USDC" := by
  have e3 : chars "USDC" = chars "USD" ++ ['C'] := by decide
  have h0 : ¬ (chars "USDT" <:+ base ++ chars "USDC") := by
    have e1 : chars "USDT" = chars "USD" ++ ['T'] := by decide
    have e2 : base ++ chars "USDC" = (base ++ chars "USD") ++ ['C'] := by
      rw [e3, ← List.append_assoc]
    rw [e1, e2]
    exact not_suffix_concat_of_ne _ _ _ _ (by decide)
  have h1 : chars "USDC" <:+ base ++ chars "USDC" := List.suffix_append _ _
  unfold to_blofin_symbol
  rw [if_neg h0, if_pos h1, take_append_sub base (chars "USDC") rfl]

/-! ## Claim theorems -/

/-- C1 counterexample: the pagination cursor does NOT always equal the
maximum orderId seen in the page.  On a page consisting of one row in state
`'canceled'` with orderId `"7"` (the unique, hence maximal, orderId of the
page), the `continue` for non-filled rows skips the cursor update, so the
cursor stays `none` instead of becoming `some "7"`. -/
theorem trades_cursor_counterexample :
    (processTradePage 0 none
      [⟨chars "canceled", 1, 0, chars "BTC-USDT", some 0, some (chars "7")⟩]).2 = none ∧
    (none : Option (List Char)) ≠ some (chars "7") := by decide

/-- C1 (amended): after processing a page, the cursor equals the orderId of
the LAST row of the page that is in state `'filled'` and carries a present,
non-empty orderId; if there is no such row the cursor is unchanged.  In
particular the cursor does advance on filled rows whose pnl is zero (second
conjunct), but rows in any other state never advance it. -/
theorem trades_cursor_last_filled :
    (∀ now cursor trades,
      (processTradePage now cursor trades).2 = (lastFilledId trades).or cursor) ∧
    (processTradePage 0 none
      [⟨chars "filled", 0, 0, chars "BTC-USDT", some 0, some (chars "9")⟩]).2 =
      some (chars "9") := by
  constructor
  · intro now cursor trades
    exact processTradePage_snd trades now cursor
  · decide

/-- C2 counterexample: the active-symbol set is NOT reset to the configured
tracked symbols of the synchronizer.  With configured symbols `["ETHUSDT"]`
and an empty positions response, the set after the cycle is the hard-coded
`["BTC-USDT"]`, not the configured list. -/
theorem active_symbols_reset_counterexample :
    (sync_positions_cycle [chars "ETHUSDT"] []).1 = [chars "BTC-USDT"] ∧
    [chars "BTC-USDT"] ≠ [chars "ETHUSDT"] := by decide

/-- C2 (amended): each Position Sync cycle first resets the active-symbol
set to the constant list `["BTC-USDT"]` — irrespective of the configured
symbols — and then appends the instrument id of every returned position row
with non-zero size, in order; so after the cycle the set equals
`"BTC-USDT"` followed by exactly the instrument ids of the non-zero-size
positions. -/
theorem active_symbols_constant_base :
    ∀ symbols rows, (sync_positions_cycle symbols rows).1 =
      chars "BTC-USDT" ::
        (rows.filter fun r => decide (r.positions ≠ 0)).map PositionRow.instId := by
  intro symbols rows
  simp [sync_positions_cycle, processPositionRows_eq]

/-- C3: symbol conversion is a bijection on the recognized-suffix subset.
For every base asset code (a hyphen-free character string), converting the
exchange-format id `BASE-USDT`/`BASE-USDC` to internal format (hyphen
removal) and back yields the original, and converting the internal-format
symbol `BASEUSDT`/`BASEUSDC` to exchange format and back yields the
original. -/
theorem symbol_conversion_roundtrip :
    ∀ base : List Char, '-' ∉ base →
      removeHyphens (to_blofin_symbol (base ++ chars "USDT")) = base ++ chars "USDT" ∧
      removeHyphens (to_blofin_symbol (base ++ chars "USDC")) = base ++ chars "USDC" ∧
      to_blofin_symbol (removeHyphens (base ++ chars "-USDT")) = base ++ chars "-USDT" ∧
      to_blofin_symbol (removeHyphens (base ++ chars "-USDC")) = base ++ chars "-USDC" := by
  intro base h
  have hb := removeHyphens_eq_self base h
  have hdT : removeHyphens (chars "-USDT") = chars "USDT" := by decide
  have hdC : removeHyphens (chars "-USDC") = chars "USDC" := by decide
  have hT : removeHyphens (base ++ chars "-USDT") = base ++ chars "USDT" := by
    rw [removeHyphens_append, hb, hdT]
  have hC : removeHyphens (base ++ chars "-USDC") = base ++ chars "USDC" := by
    rw [removeHyphens_append, hb, hdC]
  refine ⟨?_, ?_, ?_, ?_⟩
  · rw [to_blofin_append_USDT, removeHyphens_append, hb, hdT]
  · rw [to_blofin_append_USDC, removeHyphens_append, hb, hdC]
  · rw [hT, to_blofin_append_USDT]
  · rw [hC, to_blofin_append_USDC]

/-- Witness for C3 at the concrete base asset code `BTC`. -/
theorem symbol_conversion_roundtrip_witness :
    ('-' ∉ chars "BTC") ∧
    (removeHyphens (to_blofin_symbol (chars "BTC" ++ chars "USDT")) =
        chars "BTC" ++ chars "USDT" ∧
      removeHyphens (to_blofin_symbol (chars "BTC" ++ chars "USDC")) =
        chars "BTC" ++ chars "USDC" ∧
      to_blofin_symbol (removeHyphens (chars "BTC" ++ chars "-USDT")) =
        chars "BTC" ++ chars "-USDT" ∧
      to_blofin_symbol (removeHyphens (chars "BTC" ++ chars "-USDC")) =
        chars "BTC" ++ chars "-USDC") :=
  ⟨by decide, symbol_conversion_roundtrip (chars "BTC") (by decide)⟩

/-- C4: an order-history row produces an `Income` iff its state is
`'filled'` and its pnl is non-zero (first conjunct: the emitted batch is
exactly the filtered rows, mapped to their `Income` records, so non-filled
rows and zero-pnl filled rows produce nothing and each qualifying row
produces exactly one record); and every produced record's income amount is
`pnl + fee` (second conjunct). -/
theorem trades_income_characterization :
    (∀ now cursor trades, (processTradePage now cursor trades).1 =
      (trades.filter fun t =>
        decide (t.state = chars "filled") && decide (t.pnl ≠ 0)).map (mkIncome now)) ∧
    (∀ now trade, (mkIncome now trade).income = trade.pnl + trade.fee) := by
  refine ⟨?_, fun _ _ => rfl⟩
  intro now cursor trades
  exact processTradePage_fst trades now cursor

/-- C5 (code evaluation at the failing input): the source line
`order.side = side if side in ['BUY', 'SELL'] else side` yields `side` in
both branches, so the uppercased input side passes through unconditionally
(first conjunct); on an active-order row with side `"hold"` the emitted
side is `"HOLD"`, which is neither `"BUY"` nor `"SELL"`, contradicting the
claim that every emitted side lies in that set. -/
theorem orders_side_uppercase_passthrough :
    (∀ item : OrderRow, (orderOfRow item).side = pyUpper (item.side.getD [])) ∧
    (sync_open_orders_cycle
      [⟨chars "BTC-USDT", 1, 2, some (chars "hold"), none, none⟩]).map Order.side =
      [chars "HOLD"] ∧
    chars "HOLD" ≠ chars "BUY" ∧ chars "HOLD" ≠ chars "SELL" := by
  refine ⟨?_, by decide, by decide, by decide⟩
  intro item
  simp [orderOfRow, ite_self]

/-- C6: Balance Sync partitions the returned asset rows — when the rows
with currency `USDT` are exactly one row `r`, `totalBalance` is `r`'s
balance (first conjunct); every non-USDT row becomes an `AssetBalance` with
`unrealizedProfit` fixed at 0 (second conjunct); `totalUnrealizedProfit`
sums `unrealizedPnl` over the fetched positions (third conjunct); and the
spec's concrete scenario evaluates as stated (fourth conjunct, with
`0.002 = 1/500`). -/
theorem balance_partition :
    (∀ rows positions_resp r,
      rows.filter (fun a => decide (rowCurrency a = chars "USDT")) = [r] →
      (sync_account_cycle rows positions_resp).totalBalance = r.balance) ∧
    (∀ rows positions_resp,
      (sync_account_cycle rows positions_resp).assets =
        (rows.filter fun a => !decide (rowCurrency a = chars "USDT")).map
          (fun a => ⟨rowCurrency a, a.balance, 0⟩)) ∧
    (∀ rows ps, (sync_account_cycle rows (some ps)).totalUnrealizedProfit =
      (ps.map PositionRow.unrealizedPnl).sum) ∧
    (sync_account_cycle
      [⟨some (chars "USDT"), 100, 100⟩, ⟨some (chars "BTC"), 1/500, 1/500⟩]
      (some [⟨chars "BTC-USDT", 1, none, 0, 5, 0, 0⟩]) =
      ⟨100, 5, [⟨chars "BTC", 1/500, 0⟩]⟩) := by
  refine ⟨?_, ?_, ?_, ?_⟩
  · intro rows positions_resp r hform
    simp [sync_account_cycle, processAssetRows_fst, hform]
  · intro rows positions_resp
    simp [sync_account_cycle, processAssetRows_snd]
  · intro rows ps
    simp [sync_account_cycle, List.sum_eq_foldl, List.foldl_map]
  · simp [sync_account_cycle, processAssetRows, rowCurrency, chars]

/-- Witness for C6 at a one-row balance response whose unique USDT row has
balance 100. -/
theorem balance_partition_witness :
    (sync_account_cycle [⟨some (chars "USDT"), 100, 100⟩] none).totalBalance = 100 :=
  balance_partition.1 _ none ⟨some (chars "USDT"), 100, 100⟩ (by decide)

/-- C7: side resolution of Position Sync.  The emitted positions are the
non-zero rows mapped through `mkPosition` (first conjunct); an explicit
`positionSide` of `'long'`/`'short'` forces side `LONG`/`SHORT` regardless
of the quantity's sign (second and third conjuncts); any other explicit
value, and an absent field (which reads as `'net'`), fall back to the sign
of the quantity (fourth and fifth conjuncts). -/
theorem position_side_resolution :
    (∀ symbols rows, (sync_positions_cycle symbols rows).2 =
      (rows.filter fun r => decide (r.positions ≠ 0)).map mkPosition) ∧
    (∀ row : PositionRow, row.positionSide = some (chars "long") →
      (mkPosition row).side = chars "LONG") ∧
    (∀ row : PositionRow, row.positionSide = some (chars "short") →
      (mkPosition row).side = chars "SHORT") ∧
    (∀ (row : PositionRow) ps, row.positionSide = some ps →
      ps ≠ chars "long" → ps ≠ chars "short" →
      (mkPosition row).side =
        (if row.positions > 0 then chars "LONG" else chars "SHORT")) ∧
    (∀ row : PositionRow, row.positionSide = none →
      (mkPosition row).side =
        (if row.positions > 0 then chars "LONG" else chars "SHORT")) := by
  have hnl : chars "net" ≠ chars "long" := by decide
  have hns : chars "net" ≠ chars "short" := by decide
  refine ⟨?_, ?_, ?_, ?_, ?_⟩
  · intro symbols rows
    simp [sync_positions_cycle, processPositionRows_eq]
  · intro row h
    simp [mkPosition, resolveSide, h]
  · intro row h
    have hsl : chars "short" ≠ chars "long" := by decide
    simp [mkPosition, resolveSide, h, hsl]
  · intro row ps h h1 h2
    simp [mkPosition, resolveSide, h, h1, h2]
  · intro row h
    simp [mkPosition, resolveSide, h, hnl, hns]

/-- Witness for C7: an explicit `'long'` overrides a negative quantity, and
an explicit `'net'` falls back to the quantity sign. -/
theorem position_side_resolution_witness :
    (mkPosition ⟨chars "BTC-USDT", -3, some (chars "long"), 0, 0, 0, 0⟩).side =
      chars "LONG" ∧
    (mkPosition ⟨chars "ETH-USDT", 2, some (chars "net"), 0, 0, 0, 0⟩).side =
      (if (2 : ℚ) > 0 then chars "LONG" else chars "SHORT") :=
  ⟨position_side_resolution.2.1 _ rfl,
   position_side_resolution.2.2.2.1 _ (chars "net") rfl (by decide) (by decide)⟩

/-- C8: Position Sync materializes a record exactly for the rows with
non-zero quantity (first conjunct: zero-quantity rows are filtered out);
each record's `position_size` is the absolute value of the row's quantity
(second conjunct); hence every emitted position's `position_size` is
strictly positive (third conjunct). -/
theorem position_nonzero_magnitude :
    (∀ symbols rows, (sync_positions_cycle symbols rows).2 =
      (rows.filter fun r => decide (r.positions ≠ 0)).map mkPosition) ∧
    (∀ row : PositionRow, (mkPosition row).position_size = |row.positions|) ∧
    (∀ symbols rows p, p ∈ (sync_positions_cycle symbols rows).2 →
      0 < p.position_size) := by
  refine ⟨?_, fun _ => rfl, ?_⟩
  · intro symbols rows
    simp [sync_positions_cycle, processPositionRows_eq]
  · intro symbols rows p hp
    simp only [sync_positions_cycle, processPositionRows_eq, List.nil_append,
      List.mem_map, List.mem_filter, decide_eq_true_eq] at hp
    obtain ⟨r, ⟨hmem, hne⟩, rfl⟩ := hp
    have hsz : (mkPosition r).position_size = |r.positions| := rfl
    rw [hsz]
    exact abs_pos.mpr hne

/-- Witness for C8: the single short position of size −3 is emitted with a
strictly positive `position_size`. -/
theorem position_nonzero_magnitude_witness :
    0 < (mkPosition ⟨chars "BTC-USDT", -3, none, 0, 0, 0, 0⟩).position_size :=
  position_nonzero_magnitude.2.2 [] [⟨chars "BTC-USDT", -3, none, 0, 0, 0, 0⟩] _
    (by decide)

/-- C9: per-symbol failure isolation in Tick Sync.  The ticks emitted in a
cycle are computed symbol-by-symbol — symbol `sym` contributes a tick iff
its own fetch returns a response with a non-empty data list, independently
of every other symbol's outcome (first conjunct); in particular, in the
spec's scenario where the fetch for one of three symbols raises, the other
two still emit their ticks (second conjunct). -/
theorem tick_per_symbol_isolation :
    (∀ now fetch syms, sync_current_price_cycle now fetch syms =
      syms.filterMap (fun sym =>
        match fetch sym with
        | TickerResult.resp (some (tick_data :: _)) => some (mkTick now sym tick_data)
        | _ => none)) ∧
    (sync_current_price_cycle 0
      (fun s => if s = chars "B" then TickerResult.raise
                else TickerResult.resp (some [⟨10, 1, some 99⟩]))
      [chars "A", chars "B", chars "C"] =
      [⟨chars "A", 10, 1, 99⟩, ⟨chars "C", 10, 1, 99⟩]) := by
  refine ⟨?_, by decide⟩
  intro now fetch syms
  exact sync_current_price_cycle_eq now fetch syms

/-- C10: a balance row with no `currency` key is treated exactly like an
explicit `USDT` row (first conjunct: replacing a missing currency by
`USDT` changes nothing in the emitted `Balance`); only rows whose currency
is present and different from `USDT` become `AssetBalance` entries (second
conjunct); and the last USDT-like row wins the `totalBalance` assignment,
whether it is the missing-currency row (third conjunct) or the explicit
one (fourth conjunct). -/
theorem balance_missing_currency :
    (∀ bal av rows positions_resp,
      sync_account_cycle (⟨none, bal, av⟩ :: rows) positions_resp =
        sync_account_cycle (⟨some (chars "USDT"), bal, av⟩ :: rows) positions_resp) ∧
    (∀ rows positions_resp,
      (sync_account_cycle rows positions_resp).assets =
        (rows.filter fun a => !decide (rowCurrency a = chars "USDT")).map
          (fun a => ⟨rowCurrency a, a.balance, 0⟩)) ∧
    (sync_account_cycle [⟨some (chars "USDT"), 7, 7⟩, ⟨none, 42, 42⟩] none =
      ⟨42, 0, []⟩) ∧
    (sync_account_cycle [⟨none, 42, 42⟩, ⟨some (chars "USDT"), 7, 7⟩] none =
      ⟨7, 0, []⟩) := by
  refine ⟨?_, ?_, by decide, by decide⟩
  · intro bal av rows positions_resp
    rfl
  · intro rows positions_resp
    simp [sync_account_cycle, processAssetRows_snd]

end BlofinFutures
